import Mathlib

/-!
Shallow embedding of the `FileSearcher` concurrent text-search tool
(`src/main.py`) and proofs about its specified behaviour.

Files are modelled by the observations the program makes of them:
the bytes delivered by the binary sniff, the lines yielded by text
iteration (with an error flag for a failure mid-read), and the result
of the JSON parse.  All program logic (classification, line scan,
structured JSON scan, per-file processing, aggregation) is translated
from the source.
-/

namespace DataSearcher

/-- Python `needle in hay-starting-here`: does `hay` start with `needle`? -/
def startsWithL : List Char → List Char → Bool
  | [], _ => true
  | _ :: _, [] => false
  | a :: as, b :: bs => a == b && startsWithL as bs

/-- Python's `needle in hay` substring test on character lists. -/
def containsL : List Char → List Char → Bool
  | needle, [] => startsWithL needle []
  | needle, c :: t => startsWithL needle (c :: t) || containsL needle t

/-- Python's `needle in hay` literal substring test on strings
(the only matching mode the tool supports). -/
def pyIn (needle hay : String) : Bool :=
  containsL needle.data hay.data

/-- Characters stripped by Python's no-argument `str.rstrip()`:
ASCII whitespace, including vertical tab and form feed. -/
def pyIsSpace (c : Char) : Bool :=
  c == ' ' || c == '\t' || c == '\n' || c == '\r' || c == '\x0b' || c == '\x0c'

/-- Python `line.rstrip()`: drop all trailing whitespace characters. -/
def pyRstrip (s : String) : String :=
  ⟨(s.data.reverse.dropWhile pyIsSpace).reverse⟩

/-- Python `s.lower()`, modelled character-wise on the ASCII range. -/
def pyLower (s : String) : String :=
  ⟨s.data.map Char.toLower⟩

/-- Last index of character `c` in the list, or `-1` when absent
(Python `str.rfind`). -/
def lastIdxAux (c : Char) : List Char → Nat → Int → Int
  | [], _, acc => acc
  | x :: t, i, acc => lastIdxAux c t (i + 1) (if x == c then Int.ofNat i else acc)

/-- Python `p.rfind(c)`. -/
def lastIdx (p : String) (c : Char) : Int :=
  lastIdxAux c p.data 0 (-1)

/-- Extension part of `os.path.splitext(p)` on POSIX: the suffix from the
last dot of the basename, unless every basename character before that dot
is itself a dot (hidden files such as `.bashrc` have no extension). -/
def splitextExt (p : String) : String :=
  let cs := p.data
  let sepIndex := lastIdx p '/'
  let dotIndex := lastIdx p '.'
  if sepIndex < dotIndex then
    let between := (cs.drop (sepIndex + 1).toNat).take (dotIndex - sepIndex - 1).toNat
    if between.any (fun ch => ch != '.') then ⟨cs.drop dotIndex.toNat⟩ else ""
  else ""

/-- One occurrence reported by the tool: the dictionaries built in
`search_file` and `search_json`, with `json_path` present only for
structured matches. -/
structure MatchRecord where
  line_num : Nat
  line : String
  file_path : String
  json_path : Option String
  deriving Repr, DecidableEq

/-- A parsed JSON value, as produced by `json.load`: the tagged-variant
tree the structured scanner walks.  Numbers are modelled by integers. -/
inductive JsonVal where
  | jstr : String → JsonVal
  | jint : Int → JsonVal
  | jbool : Bool → JsonVal
  | jnull : JsonVal
  | jobj : List (String × JsonVal) → JsonVal
  | jarr : List JsonVal → JsonVal

/-- Python `str(v)` on a scalar JSON value (strings render as themselves,
`True`/`False`/`None` as Python spells them, integers in decimal). -/
def pyStr : JsonVal → String
  | .jstr s => s
  | .jint n => toString n
  | .jbool true => "True"
  | .jbool false => "False"
  | .jnull => "None"
  | .jobj _ => ""
  | .jarr _ => ""

/-- A file as observed by the program: the bytes the binary sniff reads
(`none` when opening for the sniff raises), the lines text iteration
yields before any failure, whether an I/O error occurs during or after
that iteration, the outcome of the JSON parse (`none` models a
`JSONDecodeError`), and whether re-opening the file for the JSON pass
raises a non-decode error. -/
structure FSFile where
  path : String
  bytes : Option (List Nat)
  textLines : List String
  textError : Bool
  jsonData : Option JsonVal
  jsonReadError : Bool

/-- The configuration state built by `FileSearcher.__init__`: exclusion
patterns are modelled by their match functions (the code applies
`re.search(pattern, path)`). -/
structure FileSearcher where
  search_term : String
  directory : String
  exclude_patterns : List (String → Bool)
  max_workers : Int
  file_extensions : List String
  case_sensitive : Bool

/-- Default accepted-extension list from `FileSearcher.__init__`. -/
def defaultExtensions : List String :=
  [".txt", ".json", ".sql", ".py", ".md", ".csv", ".log", ".xml", ".html", ".js", ".css"]

/-- Python `x or default` for an optional-list argument: `None` and the
empty list are falsy and select the default. -/
def pyOrList {α : Type} : Option (List α) → List α → List α
  | none, d => d
  | some [], d => d
  | some (x :: xs), _ => x :: xs

/-- `FileSearcher.__init__`: normalises the worker count with
`max(1, max_workers)` and replaces a falsy `file_extensions` or
`exclude_patterns` argument by the default. -/
def mkFileSearcher (search_term directory : String)
    (exclude_patterns : Option (List (String → Bool)))
    (max_workers : Int)
    (file_extensions : Option (List String))
    (case_sensitive : Bool) : FileSearcher :=
  { search_term := search_term
    directory := directory
    exclude_patterns := pyOrList exclude_patterns []
    max_workers := max 1 max_workers
    file_extensions := pyOrList file_extensions defaultExtensions
    case_sensitive := case_sensitive }

/-- `is_excluded`: some configured pattern matches the path. -/
def is_excluded (cfg : FileSearcher) (file_path : String) : Bool :=
  cfg.exclude_patterns.any (fun p => p file_path)

/-- `is_binary_file`: a NUL byte within the first 1024 bytes; any error
while sniffing counts as binary. -/
def is_binary_file (f : FSFile) : Bool :=
  match f.bytes with
  | none => true
  | some bs => (bs.take 1024).contains 0

/-- `is_searchable_file`: not excluded, not binary, and the lowercased
extension passes the (possibly empty, hence wildcard) extension set. -/
def is_searchable_file (cfg : FileSearcher) (f : FSFile) : Bool :=
  if is_excluded cfg f.path || is_binary_file f then false
  else
    let ext := pyLower (splitextExt f.path)
    cfg.file_extensions.isEmpty || cfg.file_extensions.contains ext

/-- The per-line match test of `search_file`: literal substring, case
folded unless `case_sensitive`. -/
def lineHit (cfg : FileSearcher) (s : String) : Bool :=
  (cfg.case_sensitive && pyIn cfg.search_term s) ||
  (!cfg.case_sensitive && pyIn (pyLower cfg.search_term) (pyLower s))

/-- The line-scanning loop of `search_file`: `enumerate(f, 1)` with the
match test above, recording the `rstrip`-ped line. -/
def scanLines (cfg : FileSearcher) (fp : String) : List String → Nat → List MatchRecord
  | [], _ => []
  | l :: ls, n =>
      (if lineHit cfg l then [⟨n, pyRstrip l, fp, none⟩] else []) ++ scanLines cfg fp ls (n + 1)

/-- The configured-case-rule substring test used by `search_json` on keys
and string values (same shape as the line test). -/
def caseHit (cfg : FileSearcher) (s : String) : Bool :=
  (cfg.case_sensitive && pyIn cfg.search_term s) ||
  (!cfg.case_sensitive && pyIn (pyLower cfg.search_term) (pyLower s))

mutual

/-- `search_json`: recursive walk of a parsed JSON value with a path
accumulator; non-container top-level values yield no matches. -/
def search_json (cfg : FileSearcher) (fp : String) : JsonVal → String → List MatchRecord
  | .jobj fields, path => searchFields cfg fp fields path
  | .jarr items, path => searchItems cfg fp items path 0
  | _, _ => []

/-- The dict loop of `search_json`: key test, then recurse into containers
or apply the value tests (string under the configured case rule, other
scalars by the always-case-sensitive fallthrough branch). -/
def searchFields (cfg : FileSearcher) (fp : String) :
    List (String × JsonVal) → String → List MatchRecord
  | [], _ => []
  | (k, v) :: rest, path =>
      let cp := path ++ "." ++ k
      (if caseHit cfg k then [⟨0, cp ++ ": " ++ k, fp, some cp⟩] else []) ++
      (match v with
       | .jobj f2 => search_json cfg fp (.jobj f2) cp
       | .jarr a2 => search_json cfg fp (.jarr a2) cp
       | .jstr s =>
           if caseHit cfg s then [⟨0, cp ++ ": " ++ s, fp, some cp⟩]
           else if pyIn cfg.search_term s then [⟨0, cp ++ ": " ++ s, fp, some cp⟩]
           else []
       | v' =>
           if pyIn cfg.search_term (pyStr v') then [⟨0, cp ++ ": " ++ pyStr v', fp, some cp⟩]
           else []) ++
      searchFields cfg fp rest path

/-- The list loop of `search_json`: `enumerate` with `[index]` path
segments, same value tests as the dict loop, no key test. -/
def searchItems (cfg : FileSearcher) (fp : String) :
    List JsonVal → String → Nat → List MatchRecord
  | [], _, _ => []
  | item :: rest, path, i =>
      let cp := path ++ "[" ++ toString i ++ "]"
      (match item with
       | .jobj f2 => search_json cfg fp (.jobj f2) cp
       | .jarr a2 => search_json cfg fp (.jarr a2) cp
       | .jstr s =>
           if caseHit cfg s then [⟨0, cp ++ ": " ++ s, fp, some cp⟩]
           else if pyIn cfg.search_term s then [⟨0, cp ++ ": " ++ s, fp, some cp⟩]
           else []
       | v' =>
           if pyIn cfg.search_term (pyStr v') then [⟨0, cp ++ ": " ++ pyStr v', fp, some cp⟩]
           else []) ++
      searchItems cfg fp rest path (i + 1)

end

/-- Python `file_path.lower().endswith(suffix)`. -/
def lowerEndsWith (file_path suffix : String) : Bool :=
  startsWithL suffix.data.reverse (pyLower file_path).data.reverse

/-- `search_file`: scan lines, then (for `.json` paths) parse and run the
structured scanner; any I/O error is caught, logged, and the matches
collected so far are returned.  The Boolean records whether the
error-logging branch ran. -/
def search_file (cfg : FileSearcher) (f : FSFile) : List MatchRecord × Bool :=
  let lineMatches := scanLines cfg f.path f.textLines 1
  if f.textError then (lineMatches, true)
  else if lowerEndsWith f.path ".json" then
    if f.jsonReadError then (lineMatches, true)
    else
      match f.jsonData with
      | none => (lineMatches, false)
      | some v => (lineMatches ++ search_json cfg f.path v "$", false)
  else (lineMatches, false)

/-- The shared mutable state of the coordinator: result map (association
list keyed by path), files-processed and matches-found counters. -/
structure SearchState where
  results : List (String × List MatchRecord)
  files_processed : Nat
  matches_found : Nat
  deriving Repr, DecidableEq

/-- The empty state created at `FileSearcher.__init__`. -/
def initState : SearchState := ⟨[], 0, 0⟩

/-- Python dict assignment `results[fp] = batch`: overwrite in place when
the key exists, append otherwise. -/
def setResult (rs : List (String × List MatchRecord)) (fp : String)
    (batch : List MatchRecord) : List (String × List MatchRecord) :=
  if rs.any (fun pr => pr.1 == fp) then
    rs.map (fun pr => if pr.1 == fp then (fp, batch) else pr)
  else rs ++ [(fp, batch)]

/-- One critical section of `process_file` (one `with self.lock:` block):
either the merge of a batch together with the matches-found increment,
or the files-processed increment. -/
inductive CriticalSection where
  | merge (fp : String) (batch : List MatchRecord) : CriticalSection
  | fpInc : CriticalSection
  deriving Repr, DecidableEq

/-- The state update a critical section performs atomically. -/
def applySection (a : CriticalSection) (st : SearchState) : SearchState :=
  match a with
  | .merge fp batch =>
      { st with results := setResult st.results fp batch
                matches_found := st.matches_found + batch.length }
  | .fpInc => { st with files_processed := st.files_processed + 1 }

/-- `process_file` as its sequence of critical sections: nothing for an
unsearchable file; otherwise the merge section (only for a non-empty
batch) followed by the separate files-processed section. -/
def process_file (cfg : FileSearcher) (f : FSFile) : List CriticalSection :=
  if is_searchable_file cfg f then
    let ms := (search_file cfg f).1
    (if ms.isEmpty then [] else [.merge f.path ms]) ++ [.fpInc]
  else []

/-- Run a sequence of critical sections in order. -/
def applySections (acts : List CriticalSection) (st : SearchState) : SearchState :=
  acts.foldl (fun s a => applySection a s) st

/-- All critical sections generated by one run over the enumerated
files; a completed run executes exactly these, in some interleaving that
preserves each file's own order. -/
def runSections (cfg : FileSearcher) (files : List FSFile) : List CriticalSection :=
  (files.map (process_file cfg)).flatten

/-- The batch a file contributes to the run: empty for a file failing
classification (which is never scanned), the scanner output otherwise. -/
def fileBatch (cfg : FileSearcher) (f : FSFile) : List MatchRecord :=
  if is_searchable_file cfg f then (search_file cfg f).1 else []

/-- Effective concurrency chosen by `search_directory`. -/
def effectiveWorkers (cfg : FileSearcher) (total_files : Int) : Int :=
  max 1 (min cfg.max_workers total_files)

/-- The claim-as-spec reading of "line content with exactly the trailing
newline stripped": drop one final newline character, nothing else.
Modelled from the spec for comparison with the code's `rstrip`. -/
def specStripTrailingNewline (s : String) : String :=
  match s.data.reverse with
  | '\n' :: rest => ⟨rest.reverse⟩
  | _ => s

/-- A case-insensitive searcher for the term `hit`, built through the
public constructor with default extensions and no exclusions. -/
def cfg0 : FileSearcher := mkFileSearcher "hit" "." none 1000 none false

/-- A case-insensitive searcher for the term `findme`. -/
def cfgFind : FileSearcher := mkFileSearcher "findme" "." none 1000 none false

/-- A case-insensitive searcher for the term `4`. -/
def cfg4 : FileSearcher := mkFileSearcher "4" "." none 1000 none false

/-- A healthy one-line text file whose single line contains the term. -/
def f0 : FSFile := ⟨"a.txt", some [104, 105, 116], ["hit\n"], false, none, false⟩

/-- A file whose read fails after its first (matching) line was yielded. -/
def fErr : FSFile := ⟨"b.txt", some [104], ["hit\n"], true, none, false⟩

/-- A file whose matching line carries a trailing space before the
newline. -/
def fWs : FSFile := ⟨"c.txt", some [104], ["hit \n"], false, none, false⟩

/-- A three-line text file in which only line 2 contains the term. -/
def f3line : FSFile := ⟨"d.txt", some [104], ["aaa\n", "say hit\n", "bbb\n"], false, none, false⟩

/-- A file whose sniffed bytes contain a NUL byte. -/
def fBin : FSFile := ⟨"e.txt", some [104, 0, 116], ["hit\n"], false, none, false⟩

/-- The JSON document with key `a` mapping to an object whose key `b`
maps to the string `findme`. -/
def doc7 : JsonVal := .jobj [("a", .jobj [("b", .jstr "findme")])]

/-- C8: a path is searchable exactly when it is not excluded, not binary,
and its lowercased extension is in the accepted set — with an empty set
accepting every extension; an unsearchable path is never content-scanned
(its processing performs no critical section at all). -/
theorem is_searchable_file_spec (cfg : FileSearcher) (f : FSFile) :
    (is_searchable_file cfg f = true ↔
      (is_excluded cfg f.path = false ∧ is_binary_file f = false ∧
        (cfg.file_extensions = [] ∨ pyLower (splitextExt f.path) ∈ cfg.file_extensions)))
    ∧ (is_searchable_file cfg f = false → process_file cfg f = []) := by
  constructor
  · unfold is_searchable_file
    by_cases hx : is_excluded cfg f.path <;> by_cases hb : is_binary_file f <;>
      simp [hx, hb]
  · intro h
    unfold process_file
    simp [h]

/-- C8 witness: the concrete binary file is rejected and never scanned. -/
theorem is_searchable_file_spec_witness :
    is_searchable_file cfg0 fBin = false ∧ process_file cfg0 fBin = [] :=
  ⟨by decide, (is_searchable_file_spec cfg0 fBin).2 (by decide)⟩

/-- C9: with at least one enumerated file, the effective concurrency is
`max 1 (min w n)` — the clamp of the configured count `w` to `[1, n]` —
and both the effective concurrency and the normalised constructor field
are at least 1 even for non-positive `w`. -/
theorem effectiveWorkers_clamp (st dir : String)
    (ep : Option (List (String → Bool))) (w : Int) (fe : Option (List String))
    (cs : Bool) (n : Int) (hn : 1 ≤ n) :
    effectiveWorkers (mkFileSearcher st dir ep w fe cs) n = max 1 (min w n)
    ∧ 1 ≤ effectiveWorkers (mkFileSearcher st dir ep w fe cs) n
    ∧ 1 ≤ (mkFileSearcher st dir ep w fe cs).max_workers := by
  unfold effectiveWorkers mkFileSearcher
  simp only
  rw [Int.max_def, Int.max_def, Int.max_def, Int.min_def, Int.min_def]
  split_ifs <;> omega

/-- C9 witness: a configured worker count of `-5` over three files is
normalised to effective concurrency 1. -/
theorem effectiveWorkers_clamp_witness :
    effectiveWorkers (mkFileSearcher "t" "." none (-5) none false) 3 = max 1 (min (-5) 3)
    ∧ 1 ≤ effectiveWorkers (mkFileSearcher "t" "." none (-5) none false) 3
    ∧ 1 ≤ (mkFileSearcher "t" "." none (-5) none false).max_workers :=
  effectiveWorkers_clamp "t" "." none (-5) none false 3 (by decide)

/-- C10: a falsy `file_extensions` argument (`None` or the empty list)
yields the default extension list, every constructed instance carries a
non-empty extension list, and consequently the empty-set wildcard branch
of `is_searchable_file` is dead for constructor-built instances: the
filter is pure membership. -/
theorem mkFileSearcher_default_extensions (st dir : String)
    (ep : Option (List (String → Bool))) (w : Int) (cs : Bool) :
    (mkFileSearcher st dir ep w none cs).file_extensions = defaultExtensions
    ∧ (mkFileSearcher st dir ep w (some []) cs).file_extensions = defaultExtensions
    ∧ defaultExtensions =
        [".txt", ".json", ".sql", ".py", ".md", ".csv", ".log", ".xml", ".html", ".js", ".css"]
    ∧ (∀ fe : Option (List String),
        (mkFileSearcher st dir ep w fe cs).file_extensions ≠ [])
    ∧ (∀ (fe : Option (List String)) (f : FSFile),
        is_searchable_file (mkFileSearcher st dir ep w fe cs) f =
          if is_excluded (mkFileSearcher st dir ep w fe cs) f.path || is_binary_file f then
            false
          else
            (mkFileSearcher st dir ep w fe cs).file_extensions.contains
              (pyLower (splitextExt f.path))) := by
  refine ⟨rfl, rfl, rfl, ?_, ?_⟩
  · intro fe
    match fe with
    | none => simp [mkFileSearcher, pyOrList, defaultExtensions]
    | some [] => simp [mkFileSearcher, pyOrList, defaultExtensions]
    | some (x :: xs) => simp [mkFileSearcher, pyOrList]
  · intro fe f
    unfold is_searchable_file
    have hne : (mkFileSearcher st dir ep w fe cs).file_extensions ≠ [] := by
      match fe with
      | none => simp [mkFileSearcher, pyOrList, defaultExtensions]
      | some [] => simp [mkFileSearcher, pyOrList, defaultExtensions]
      | some (x :: xs) => simp [mkFileSearcher, pyOrList]
    split_ifs with h
    · rfl
    · simp [List.isEmpty_iff, hne]

/-- C10 witness: the constructor applied with `file_extensions = None`
produces the default list. -/
theorem mkFileSearcher_default_extensions_witness :
    (mkFileSearcher "t" "." none 5 none false).file_extensions = defaultExtensions :=
  (mkFileSearcher_default_extensions "t" "." none 5 false).1

/-- C1 counterexample: on a file whose read fails after one matching line
was yielded, `search_file` logs the error yet returns a non-empty match
list, so an erroring file does not contribute exactly zero matches. -/
theorem search_file_error_keeps_matches_cex :
    (search_file cfg0 fErr).2 = true ∧ (search_file cfg0 fErr).1 ≠ [] ∧
      (search_file cfg0 fErr).1 = [⟨1, "hit", "b.txt", none⟩] := by
  refine ⟨rfl, ?_, rfl⟩
  decide

/-- C1 (amended): on an I/O error during the scan — mid-read, or while
re-opening a `.json` file for the structured pass — the error is logged
for that file, the function returns normally, and the file contributes
exactly the matches collected from the lines read before the error;
in particular a file whose open fails (no line yielded) contributes
zero matches. -/
theorem search_file_error_partial (cfg : FileSearcher) (f : FSFile)
    (h : f.textError = true ∨
      (lowerEndsWith f.path ".json" = true ∧ f.textError = false ∧ f.jsonReadError = true)) :
    (search_file cfg f).2 = true
    ∧ (search_file cfg f).1 = scanLines cfg f.path f.textLines 1
    ∧ (f.textLines = [] → (search_file cfg f).1 = []) := by
  unfold search_file
  rcases h with h | ⟨hj, ht, hr⟩
  · rw [h]
    exact ⟨rfl, rfl, fun hl => by rw [hl]; rfl⟩
  · rw [ht, hj, hr]
    exact ⟨rfl, rfl, fun hl => by rw [hl]; rfl⟩

/-- C1 witness: the amended statement at the concrete mid-read-error
file. -/
theorem search_file_error_partial_witness :
    (search_file cfg0 fErr).2 = true
    ∧ (search_file cfg0 fErr).1 = scanLines cfg0 fErr.path fErr.textLines 1
    ∧ (fErr.textLines = [] → (search_file cfg0 fErr).1 = []) :=
  search_file_error_partial cfg0 fErr (Or.inl rfl)

/-- C2 counterexample: for the line consisting of `hit`, a space and a
newline, the emitted record text is `hit` — the code strips all trailing
whitespace — whereas the line with exactly the trailing newline stripped
is `hit` followed by a space; the two differ. -/
theorem search_file_rstrip_cex :
    (search_file cfg0 fWs).1 = [⟨1, "hit", "c.txt", none⟩]
    ∧ specStripTrailingNewline "hit \n" = "hit "
    ∧ ("hit" : String) ≠ "hit " := by
  refine ⟨by decide, rfl, by decide⟩

/-- Membership in the scan loop output: a record is produced exactly for
each matching physical line, carrying its 1-indexed number (offset by the
starting counter) and the `rstrip`-ped line content. -/
theorem scanLines_mem (cfg : FileSearcher) (fp : String) (ls : List String)
    (n : Nat) (rec : MatchRecord) :
    rec ∈ scanLines cfg fp ls n ↔
      ∃ i, ∃ h : i < ls.length, lineHit cfg (ls.get ⟨i, h⟩) = true ∧
        rec = ⟨n + i, pyRstrip (ls.get ⟨i, h⟩), fp, none⟩ := by
  induction ls generalizing n with
  | nil => simp [scanLines]
  | cons l ls ih =>
      simp only [scanLines, List.mem_append]
      constructor
      · intro h
        rcases h with h | h
        · refine ⟨0, by simp, ?_⟩
          by_cases hl : lineHit cfg l <;> simp [hl] at h
          simp [hl, h]
        · rcases (ih (n + 1)).mp h with ⟨i, hi, hhit, heq⟩
          refine ⟨i + 1, by simpa using hi, ?_, ?_⟩
          · simpa using hhit
          · simpa [Nat.add_assoc, Nat.add_comm 1 i] using heq
      · rintro ⟨i, hi, hhit, heq⟩
        match i with
        | 0 =>
            left
            simp only [List.get] at hhit heq
            simp [hhit, heq]
        | i + 1 =>
            right
            refine (ih (n + 1)).mpr ⟨i, by simpa using hi, by simpa using hhit, ?_⟩
            simpa [Nat.add_assoc, Nat.add_comm 1 i] using heq

/-- C2 (amended): for a text file scanned without error (and no JSON
pass), the emitted records are exactly one per matching line, with the
1-indexed physical line number and the line content with all trailing
whitespace stripped (Python `rstrip`, not only the newline); on the
concrete three-line file where only line 2 matches, the sole record has
line number 2 and the stripped line 2 text. -/
theorem search_file_line_records (cfg : FileSearcher) (f : FSFile)
    (ht : f.textError = false) (hj : lowerEndsWith f.path ".json" = false)
    (rec : MatchRecord) :
    (rec ∈ (search_file cfg f).1 ↔
      ∃ i, ∃ h : i < f.textLines.length, lineHit cfg (f.textLines.get ⟨i, h⟩) = true ∧
        rec = ⟨1 + i, pyRstrip (f.textLines.get ⟨i, h⟩), f.path, none⟩)
    ∧ (search_file cfg0 f3line).1 = [⟨2, "say hit", "d.txt", none⟩] := by
  constructor
  · unfold search_file
    simp only [ht, hj, Bool.false_eq_true, if_false]
    exact scanLines_mem cfg f.path f.textLines 1 rec
  · decide

/-- C2 witness: the amended statement at the three-line file and its
line-2 record. -/
theorem search_file_line_records_witness :
    ((⟨2, "say hit", "d.txt", none⟩ : MatchRecord) ∈ (search_file cfg0 f3line).1 ↔
      ∃ i, ∃ h : i < f3line.textLines.length,
        lineHit cfg0 (f3line.textLines.get ⟨i, h⟩) = true ∧
        (⟨2, "say hit", "d.txt", none⟩ : MatchRecord) =
          ⟨1 + i, pyRstrip (f3line.textLines.get ⟨i, h⟩), f3line.path, none⟩)
    ∧ (search_file cfg0 f3line).1 = [⟨2, "say hit", "d.txt", none⟩] :=
  search_file_line_records cfg0 f3line (by decide) (by decide) ⟨2, "say hit", "d.txt", none⟩

/-- C3 counterexample: processing the concrete matching file issues two
separate critical sections, and the state after the first alone already
shows the merged result and matches-found increment while files-processed
is still zero — an interleaving can observe exactly that state. -/
theorem process_file_two_sections_cex :
    (process_file cfg0 f0).length = 2
    ∧ (applySections ((process_file cfg0 f0).take 1) initState).results ≠ []
    ∧ (applySections ((process_file cfg0 f0).take 1) initState).matches_found = 1
    ∧ (applySections ((process_file cfg0 f0).take 1) initState).files_processed = 0 := by
  refine ⟨by decide, by decide, by decide, by decide⟩

/-- C3 (amended): for a searchable file with a non-empty batch, the merge
into ResultSet and the matches-found increment share one critical
section, while files-processed is incremented in a second, separate
critical section; the merge section leaves files-processed unchanged, so
the combined ResultSet/matches-found update is observable before the
files-processed update. -/
theorem process_file_sections (cfg : FileSearcher) (f : FSFile)
    (hs : is_searchable_file cfg f = true) (hm : (search_file cfg f).1 ≠ []) :
    process_file cfg f =
      [.merge f.path (search_file cfg f).1, .fpInc]
    ∧ (∀ st : SearchState,
        (applySection (.merge f.path (search_file cfg f).1) st).files_processed =
          st.files_processed
        ∧ (applySection (.merge f.path (search_file cfg f).1) st).matches_found =
          st.matches_found + (search_file cfg f).1.length
        ∧ (applySection CriticalSection.fpInc st).files_processed =
          st.files_processed + 1) := by
  constructor
  · unfold process_file
    simp [hs, hm]
  · intro st
    exact ⟨rfl, rfl, rfl⟩

/-- C3 witness: the amended statement at the concrete matching file. -/
theorem process_file_sections_witness :
    process_file cfg0 f0 =
      [.merge f0.path (search_file cfg0 f0).1, .fpInc]
    ∧ (∀ st : SearchState,
        (applySection (.merge f0.path (search_file cfg0 f0).1) st).files_processed =
          st.files_processed
        ∧ (applySection (.merge f0.path (search_file cfg0 f0).1) st).matches_found =
          st.matches_found + (search_file cfg0 f0).1.length
        ∧ (applySection CriticalSection.fpInc st).files_processed =
          st.files_processed + 1) :=
  process_file_sections cfg0 f0 (by decide) (by decide)

/-- Lower-casing both lists preserves a leading-match. -/
theorem startsWithL_map_toLower (n h : List Char) (hs : startsWithL n h = true) :
    startsWithL (n.map Char.toLower) (h.map Char.toLower) = true := by
  induction n generalizing h with
  | nil => simp [startsWithL]
  | cons a as ih =>
      match h with
      | [] => simp [startsWithL] at hs
      | b :: bs =>
          simp only [startsWithL, Bool.and_eq_true] at hs
          have hab : a = b := by simpa using hs.1
          subst hab
          simp only [List.map, startsWithL, Bool.and_eq_true]
          exact ⟨by simp, ih bs hs.2⟩

/-- Lower-casing both lists preserves substring containment. -/
theorem containsL_map_toLower (n h : List Char) (hc : containsL n h = true) :
    containsL (n.map Char.toLower) (h.map Char.toLower) = true := by
  induction h with
  | nil =>
      simp only [containsL, List.map] at hc ⊢
      exact startsWithL_map_toLower n [] hc
  | cons c t ih =>
      simp only [containsL, List.map, Bool.or_eq_true] at hc ⊢
      rcases hc with hc | hc
      · exact Or.inl (startsWithL_map_toLower n (c :: t) hc)
      · exact Or.inr (ih hc)

/-- A case-sensitive substring hit survives lower-casing both sides. -/
theorem pyIn_pyLower (a b : String) (h : pyIn a b = true) :
    pyIn (pyLower a) (pyLower b) = true :=
  containsL_map_toLower a.data b.data h

/-- Non-textual scalar JSON values: number, boolean, null. -/
def isScalarNonText : JsonVal → Bool
  | .jint _ => true
  | .jbool _ => true
  | .jnull => true
  | _ => false

/-- C6: a non-textual scalar matches exactly when the term is a literal
case-sensitive substring of its Python string representation — in array
position, in object-value position (after the key test), and
independently of the configured case-sensitivity flag — whereas a string
value is matched under the configured case rule (the case-sensitive
fallthrough branch is dead for strings, since a case-sensitive hit
implies a case-folded hit). -/
theorem search_json_scalar_case (cfg : FileSearcher) (fp p k s : String)
    (v : JsonVal) (hv : isScalarNonText v = true) :
    search_json cfg fp (.jarr [v]) p =
      (if pyIn cfg.search_term (pyStr v) then
        [⟨0, p ++ "[" ++ toString 0 ++ "]" ++ ": " ++ pyStr v, fp,
          some (p ++ "[" ++ toString 0 ++ "]")⟩]
      else [])
    ∧ (∀ b₁ b₂ : Bool,
        search_json { cfg with case_sensitive := b₁ } fp (.jarr [v]) p =
          search_json { cfg with case_sensitive := b₂ } fp (.jarr [v]) p)
    ∧ search_json cfg fp (.jobj [(k, v)]) p =
        (if caseHit cfg k then
          [⟨0, p ++ "." ++ k ++ ": " ++ k, fp, some (p ++ "." ++ k)⟩]
        else []) ++
        (if pyIn cfg.search_term (pyStr v) then
          [⟨0, p ++ "." ++ k ++ ": " ++ pyStr v, fp, some (p ++ "." ++ k)⟩]
        else [])
    ∧ search_json cfg fp (.jarr [.jstr s]) p =
        (if caseHit cfg s then
          [⟨0, p ++ "[" ++ toString 0 ++ "]" ++ ": " ++ s, fp,
            some (p ++ "[" ++ toString 0 ++ "]")⟩]
        else []) := by
  have harr : ∀ cfg' : FileSearcher,
      search_json cfg' fp (.jarr [v]) p =
        (if pyIn cfg'.search_term (pyStr v) then
          [⟨0, p ++ "[" ++ toString 0 ++ "]" ++ ": " ++ pyStr v, fp,
            some (p ++ "[" ++ toString 0 ++ "]")⟩]
        else []) := by
    intro cfg'
    cases v with
    | jint n => simp [search_json, searchItems, pyStr]
    | jbool b => simp [search_json, searchItems, pyStr]
    | jnull => simp [search_json, searchItems, pyStr]
    | jstr s' => simp [isScalarNonText] at hv
    | jobj l => simp [isScalarNonText] at hv
    | jarr l => simp [isScalarNonText] at hv
  refine ⟨harr cfg, fun b₁ b₂ => ?_, ?_, ?_⟩
  · rw [harr { cfg with case_sensitive := b₁ }, harr { cfg with case_sensitive := b₂ }]
  · cases v with
    | jint n => simp [search_json, searchFields, pyStr]
    | jbool b => simp [search_json, searchFields, pyStr]
    | jnull => simp [search_json, searchFields, pyStr]
    | jstr s' => simp [isScalarNonText] at hv
    | jobj l => simp [isScalarNonText] at hv
    | jarr l => simp [isScalarNonText] at hv
  · by_cases hc : caseHit cfg s = true
    · simp [search_json, searchItems, hc]
    · have hns : pyIn cfg.search_term s = false := by
        by_cases hcs : cfg.case_sensitive = true
        · simp only [caseHit, hcs, Bool.true_and, Bool.not_true, Bool.false_and,
            Bool.or_false] at hc
          exact Bool.not_eq_true _ ▸ Bool.of_not_eq_true hc
        · replace hcs : cfg.case_sensitive = false := Bool.of_not_eq_true hcs
          simp only [caseHit, hcs, Bool.false_and, Bool.not_false, Bool.true_and,
            Bool.false_or] at hc
          by_contra hpos
          exact hc (pyIn_pyLower _ _ (Bool.of_not_eq_false hpos))
      simp [search_json, searchItems, hc, hns]

/-- C6 witness: the scalar 42 matches the term 4 case-sensitively in both
positions, and the flag-independence instance holds at the concrete
configuration. -/
theorem search_json_scalar_case_witness :
    search_json cfg4 "f.json" (.jarr [.jint 42]) "$" =
      (if pyIn cfg4.search_term (pyStr (.jint 42)) then
        [⟨0, "$" ++ "[" ++ toString 0 ++ "]" ++ ": " ++ pyStr (.jint 42), "f.json",
          some ("$" ++ "[" ++ toString 0 ++ "]")⟩]
      else [])
    ∧ (∀ b₁ b₂ : Bool,
        search_json { cfg4 with case_sensitive := b₁ } "f.json" (.jarr [.jint 42]) "$" =
          search_json { cfg4 with case_sensitive := b₂ } "f.json" (.jarr [.jint 42]) "$")
    ∧ search_json cfg4 "f.json" (.jobj [("k", .jint 42)]) "$" =
        (if caseHit cfg4 "k" then
          [⟨0, "$" ++ "." ++ "k" ++ ": " ++ "k", "f.json", some ("$" ++ "." ++ "k")⟩]
        else []) ++
        (if pyIn cfg4.search_term (pyStr (.jint 42)) then
          [⟨0, "$" ++ "." ++ "k" ++ ": " ++ pyStr (.jint 42), "f.json",
            some ("$" ++ "." ++ "k")⟩]
        else [])
    ∧ search_json cfg4 "f.json" (.jarr [.jstr "x4y"]) "$" =
        (if caseHit cfg4 "x4y" then
          [⟨0, "$" ++ "[" ++ toString 0 ++ "]" ++ ": " ++ "x4y", "f.json",
            some ("$" ++ "[" ++ toString 0 ++ "]")⟩]
        else []) :=
  search_json_scalar_case cfg4 "f.json" "$" "k" "x4y" (.jint 42) (by decide)

/-- C7: on the document mapping key `a` to an object mapping key `b` to
the string `findme`, the structured scanner yields exactly one match,
with structural path `$.a.b`, line number 0 and text `$.a.b: findme`;
in general, object recursion extends the parent path with a dot and the
key, and array recursion extends it with the bracketed index. -/
theorem search_json_path_structure :
    search_json cfgFind "f.json" doc7 "$" =
      [⟨0, "$.a.b: findme", "f.json", some "$.a.b"⟩]
    ∧ (∀ (cfg : FileSearcher) (fp p k : String) (fields : List (String × JsonVal)),
        search_json cfg fp (.jobj [(k, .jobj fields)]) p =
          (if caseHit cfg k then
            [⟨0, p ++ "." ++ k ++ ": " ++ k, fp, some (p ++ "." ++ k)⟩]
          else []) ++
          search_json cfg fp (.jobj fields) (p ++ "." ++ k))
    ∧ (∀ (cfg : FileSearcher) (fp p : String) (items : List JsonVal),
        search_json cfg fp (.jarr [.jarr items]) p =
          search_json cfg fp (.jarr items) (p ++ "[" ++ toString 0 ++ "]")) := by
  refine ⟨by decide, ?_, ?_⟩
  · intro cfg fp p k fields
    simp [search_json, searchFields]
  · intro cfg fp p items
    simp [search_json, searchItems]

/-- Contribution of one critical section to the files-processed counter. -/
def fpDelta : CriticalSection → Nat
  | .merge _ _ => 0
  | .fpInc => 1

/-- Contribution of one critical section to the matches-found counter. -/
def mfDelta : CriticalSection → Nat
  | .merge _ batch => batch.length
  | .fpInc => 0

/-- Every critical section adds a state-independent amount to each
counter, so running a section list adds the sum of the amounts. -/
theorem applySections_counters (acts : List CriticalSection) (st : SearchState) :
    (applySections acts st).files_processed = st.files_processed + (acts.map fpDelta).sum
    ∧ (applySections acts st).matches_found = st.matches_found + (acts.map mfDelta).sum := by
  induction acts generalizing st with
  | nil => simp [applySections]
  | cons a acts ih =>
      have h := ih (applySection a st)
      have hfold : applySections (a :: acts) st = applySections acts (applySection a st) := rfl
      constructor
      · rw [hfold, h.1]
        cases a with
        | merge fp b => simp [applySection, fpDelta]
        | fpInc =>
            simp [applySection, fpDelta]
            omega
      · rw [hfold, h.2]
        cases a with
        | merge fp b =>
            simp [applySection, mfDelta]
            omega
        | fpInc => simp [applySection, mfDelta]

/-- The critical sections of one file add 1 to files-processed exactly
when the file passes classification, and add the file's batch length to
matches-found. -/
theorem process_file_deltas (cfg : FileSearcher) (f : FSFile) :
    ((process_file cfg f).map fpDelta).sum = (if is_searchable_file cfg f then 1 else 0)
    ∧ ((process_file cfg f).map mfDelta).sum = (fileBatch cfg f).length := by
  unfold process_file fileBatch
  by_cases hs : is_searchable_file cfg f = true
  · simp only [hs, if_true]
    by_cases hm : (search_file cfg f).1.isEmpty
    · rw [List.isEmpty_iff] at hm
      simp [hm, fpDelta, mfDelta]
    · simp only [Bool.not_eq_true] at hm
      simp [hm, fpDelta, mfDelta]
  · replace hs : is_searchable_file cfg f = false := Bool.of_not_eq_true hs
    simp [hs, fpDelta, mfDelta]

/-- Counter contributions of a whole run: one per classified file for
files-processed, the per-file batch lengths for matches-found. -/
theorem runSections_counters (cfg : FileSearcher) (files : List FSFile) :
    ((runSections cfg files).map fpDelta).sum =
      (files.filter (fun f => is_searchable_file cfg f)).length
    ∧ ((runSections cfg files).map mfDelta).sum =
      (files.map (fun f => (fileBatch cfg f).length)).sum := by
  induction files with
  | nil => simp [runSections]
  | cons f fs ih =>
      have hrun : runSections cfg (f :: fs) = process_file cfg f ++ runSections cfg fs := by
        simp [runSections]
      have hd := process_file_deltas cfg f
      rw [hrun]
      simp only [List.map_append, List.sum_append, hd.1, hd.2, ih.1, ih.2,
        List.filter_cons, List.map_cons, List.sum_cons]
      by_cases hs : is_searchable_file cfg f = true
      · simp [hs]
        omega
      · replace hs : is_searchable_file cfg f = false := Bool.of_not_eq_true hs
        simp [hs]

/-- C4: after a completed run — the sections of every file executed once,
in any interleaving — files-processed equals the number of enumerated
files passing classification and matches-found equals the sum of the
per-file batch lengths; files failing classification contribute to
neither counter (their batch is empty and they are not counted). -/
theorem run_counters (cfg : FileSearcher) (files : List FSFile)
    (acts : List CriticalSection) (hp : acts.Perm (runSections cfg files)) :
    (applySections acts initState).files_processed =
      (files.filter (fun f => is_searchable_file cfg f)).length
    ∧ (applySections acts initState).matches_found =
      (files.map (fun f => (fileBatch cfg f).length)).sum := by
  have h1 := applySections_counters acts initState
  have h2 := runSections_counters cfg files
  have hfp : (acts.map fpDelta).sum = ((runSections cfg files).map fpDelta).sum :=
    (hp.map fpDelta).sum_eq
  have hmf : (acts.map mfDelta).sum = ((runSections cfg files).map mfDelta).sum :=
    (hp.map mfDelta).sum_eq
  constructor
  · rw [h1.1, hfp, h2.1]
    simp [initState]
  · rw [h1.2, hmf, h2.2]
    simp [initState]

/-- C4 witness: a concrete three-file run (one match in each of two
searchable files, one binary file), executed in reversed section order,
reports 2 files processed and 2 matches. -/
theorem run_counters_witness :
    (applySections ((runSections cfg0 [f0, fBin, f3line]).reverse) initState).files_processed =
      ([f0, fBin, f3line].filter (fun f => is_searchable_file cfg0 f)).length
    ∧ (applySections ((runSections cfg0 [f0, fBin, f3line]).reverse) initState).matches_found =
      ([f0, fBin, f3line].map (fun f => (fileBatch cfg0 f).length)).sum :=
  run_counters cfg0 [f0, fBin, f3line] (runSections cfg0 [f0, fBin, f3line]).reverse
    (List.reverse_perm _)

/-- Dict assignment adds exactly the assigned key to the key set. -/
theorem setResult_keys (rs : List (String × List MatchRecord)) (fp fp' : String)
    (b : List MatchRecord) :
    fp' ∈ (setResult rs fp b).map Prod.fst ↔ fp' ∈ rs.map Prod.fst ∨ fp' = fp := by
  unfold setResult
  by_cases h : rs.any (fun pr => pr.1 == fp)
  · simp only [h, if_true]
    have hmem : fp ∈ rs.map Prod.fst := by
      rcases List.any_eq_true.mp h with ⟨pr, hpr, hbeq⟩
      exact List.mem_map.mpr ⟨pr, hpr, by simpa using hbeq⟩
    have hg : (rs.map (fun pr => if pr.1 == fp then (fp, b) else pr)).map Prod.fst =
        rs.map Prod.fst := by
      rw [List.map_map]
      apply List.map_congr_left
      intro pr _
      by_cases hb : pr.1 == fp
      · have heq : pr.1 = fp := by simpa using hb
        simp [hb, heq]
      · have hne : pr.1 ≠ fp := by simpa using hb
        simp [hb, hne]
    rw [hg]
    constructor
    · exact Or.inl
    · rintro (hx | rfl)
      · exact hx
      · exact hmem
  · simp only [h, if_false, Bool.false_eq_true]
    simp [List.map_append]

/-- Running sections adds exactly the merged paths to the key set. -/
theorem applySections_keys (acts : List CriticalSection) (st : SearchState) (fp : String) :
    fp ∈ (applySections acts st).results.map Prod.fst ↔
      fp ∈ st.results.map Prod.fst ∨ ∃ b, CriticalSection.merge fp b ∈ acts := by
  induction acts generalizing st with
  | nil => simp [applySections]
  | cons a acts ih =>
      have hfold : applySections (a :: acts) st = applySections acts (applySection a st) := rfl
      rw [hfold, ih]
      cases a with
      | merge fp2 b2 =>
          have hsec : (applySection (CriticalSection.merge fp2 b2) st).results =
              setResult st.results fp2 b2 := rfl
          rw [hsec, setResult_keys]
          constructor
          · rintro ((hx | rfl) | ⟨b, hb⟩)
            · exact Or.inl hx
            · exact Or.inr ⟨b2, List.mem_cons_self _ _⟩
            · exact Or.inr ⟨b, List.mem_cons_of_mem _ hb⟩
          · rintro (hx | ⟨b, hb⟩)
            · exact Or.inl (Or.inl hx)
            · rcases List.mem_cons.mp hb with heq | hmem
              · injection heq with h1 h2
                exact Or.inl (Or.inr h1)
              · exact Or.inr ⟨b, hmem⟩
      | fpInc =>
          have hsec : (applySection CriticalSection.fpInc st).results = st.results := rfl
          rw [hsec]
          constructor
          · rintro (hx | ⟨b, hb⟩)
            · exact Or.inl hx
            · exact Or.inr ⟨b, List.mem_cons_of_mem _ hb⟩
          · rintro (hx | ⟨b, hb⟩)
            · exact Or.inl hx
            · rcases List.mem_cons.mp hb with heq | hmem
              · exact absurd heq (by simp)
              · exact Or.inr ⟨b, hmem⟩

/-- A merge section for a path occurs among a file's critical sections
exactly when the file is searchable, its batch is non-empty, and the
path is the file's. -/
theorem merge_mem_process_file (cfg : FileSearcher) (f : FSFile) (fp : String) :
    (∃ b, CriticalSection.merge fp b ∈ process_file cfg f) ↔
      is_searchable_file cfg f = true ∧ (search_file cfg f).1 ≠ [] ∧ fp = f.path := by
  unfold process_file
  by_cases hs : is_searchable_file cfg f = true
  · simp only [hs, if_true]
    by_cases hm : (search_file cfg f).1.isEmpty
    · rw [List.isEmpty_iff] at hm
      simp [hm]
    · have hne : (search_file cfg f).1 ≠ [] := by
        intro hc
        rw [hc] at hm
        exact hm rfl
      simp only [Bool.not_eq_true] at hm
      simp only [hm, Bool.false_eq_true, if_false, List.singleton_append]
      constructor
      · rintro ⟨b, hb⟩
        rcases List.mem_cons.mp hb with heq | hmem
        · injection heq with h1 h2
          exact ⟨by simp [hs], hne, h1⟩
        · rcases List.mem_singleton.mp hmem with h
          exact absurd h (by simp)
      · rintro ⟨-, -, rfl⟩
        exact ⟨(search_file cfg f).1, List.mem_cons_self _ _⟩
  · replace hs : is_searchable_file cfg f = false := Bool.of_not_eq_true hs
    simp [hs]

/-- A merge section for a path occurs in a run exactly when some
enumerated file with that path is searchable and matched. -/
theorem merge_mem_runSections (cfg : FileSearcher) (files : List FSFile) (fp : String) :
    (∃ b, CriticalSection.merge fp b ∈ runSections cfg files) ↔
      ∃ f ∈ files, f.path = fp ∧ is_searchable_file cfg f = true ∧
        (search_file cfg f).1 ≠ [] := by
  induction files with
  | nil => simp [runSections]
  | cons f fs ih =>
      have hrun : runSections cfg (f :: fs) = process_file cfg f ++ runSections cfg fs := by
        simp [runSections]
      rw [hrun]
      constructor
      · rintro ⟨b, hb⟩
        rcases List.mem_append.mp hb with hb | hb
        · obtain ⟨hs2, hm2, rfl⟩ := (merge_mem_process_file cfg f fp).mp ⟨b, hb⟩
          exact ⟨f, List.mem_cons_self _ _, rfl, hs2, hm2⟩
        · obtain ⟨g, hg, hgp, hgs, hgm⟩ := ih.mp ⟨b, hb⟩
          exact ⟨g, List.mem_cons_of_mem _ hg, hgp, hgs, hgm⟩
      · rintro ⟨g, hg, hgp, hgs, hgm⟩
        rcases List.mem_cons.mp hg with rfl | hmem
        · obtain ⟨b, hb⟩ := (merge_mem_process_file cfg g fp).mpr ⟨hgs, hgm, hgp.symm⟩
          exact ⟨b, List.mem_append.mpr (Or.inl hb)⟩
        · obtain ⟨b, hb⟩ := ih.mpr ⟨g, hmem, hgp, hgs, hgm⟩
          exact ⟨b, List.mem_append.mpr (Or.inr hb)⟩

/-- C5: after a completed run, in any interleaving, a path is a key of
ResultSet exactly when some enumerated file with that path passed
classification and produced at least one match record; a searchable file
with zero matches and a file failing classification never appear. -/
theorem resultset_keys (cfg : FileSearcher) (files : List FSFile)
    (acts : List CriticalSection) (hp : acts.Perm (runSections cfg files)) (fp : String) :
    fp ∈ (applySections acts initState).results.map Prod.fst ↔
      ∃ f ∈ files, f.path = fp ∧ is_searchable_file cfg f = true ∧
        (search_file cfg f).1 ≠ [] := by
  rw [applySections_keys]
  have hinit : fp ∈ initState.results.map Prod.fst ↔ False := by simp [initState]
  rw [← merge_mem_runSections cfg files fp]
  constructor
  · rintro (hx | ⟨b, hb⟩)
    · exact absurd hx (by simp [initState])
    · exact ⟨b, (hp.mem_iff).mp hb⟩
  · rintro ⟨b, hb⟩
    exact Or.inr ⟨b, (hp.mem_iff).mpr hb⟩

/-- C5 witness: in the concrete three-file run, `a.txt` (searchable, one
match) is a key and the iff instance holds. -/
theorem resultset_keys_witness :
    "a.txt" ∈ (applySections ((runSections cfg0 [f0, fBin, f3line]).reverse)
        initState).results.map Prod.fst ↔
      ∃ f ∈ [f0, fBin, f3line], f.path = "a.txt" ∧ is_searchable_file cfg0 f = true ∧
        (search_file cfg0 f).1 ≠ [] :=
  resultset_keys cfg0 [f0, fBin, f3line] (runSections cfg0 [f0, fBin, f3line]).reverse
    (List.reverse_perm _) "a.txt"

end DataSearcher
